import Mathlib

/-!
Shallow embedding of the persistence layer of rss-parrot (src/src/dal/repo.go and
src/src/shared/id_builder.go), with theorems checking the specification's claims.

Modelling conventions:
* The sqlite database is an in-memory structure `Db`; each table is a list of typed rows.
* Go errors are the inductive `GoErr`.  The go-sqlite3 driver returns its `sqlite3.Error`
  struct BY VALUE from failed statements; we therefore distinguish a value-typed sqlite
  error (`sqliteValue`) from a pointer-typed one (`sqlitePtr`), because repo.go performs
  both kinds of type assertion (`err.(sqlite3.Error)` at AddAccountIfNotExist and
  `err.(*sqlite3.Error)` at AddFeedPostIfNew) and they match different dynamic types.
* A stored account row carries a `malformed` flag meaning "this row's column data cannot
  be scanned into the Go struct" (e.g. a NULL in a column scanned into a non-nullable Go
  field); `Scan` on such a row fails.  Rows written by the functions modelled here bind
  every scanned column with a well-typed value, so they are not malformed.
* Functions that can only fail by panicking are modelled with `Option` (none = panic);
  fallible functions returning `error` are modelled with `Except GoErr` or an explicit
  `Option GoErr` component.
* Timestamps (`time.Time`) are modelled as integers; only their ordering matters here.
* The schema scripts embedded under scripts/ are repository code not present under src;
  where their content matters it is modelled from the spec and marked as such.
-/

/-- Go error values observable by repo.go.  A unique-constraint violation surfaces from
the go-sqlite3 driver as a value of struct type sqlite3.Error with Code 19 and
ExtendedCode 2067; the driver never returns a pointer to sqlite3.Error. -/
inductive GoErr where
  | sqliteValue (code extendedCode : Int)
  | sqlitePtr (code extendedCode : Int)
  | scanFailure
  | noSuchTable
  deriving Repr, DecidableEq

/-- The dal.Account struct, with the fields repo.go scans into it (privkey is never
scanned into Account; GetPrivKey returns it separately). -/
structure Account where
  id : Int
  createdAt : Int
  userUrl : String
  handle : String
  name : String
  summary : String
  profileImageUrl : String
  siteUrl : String
  feedUrl : String
  feedLastUpdated : Int
  nextCheckDue : Int
  pubKey : String
  deriving Repr, DecidableEq

/-- The zero value of the Go Account struct: what a partially scanned / unscanned
struct variable holds. -/
def zeroAccount : Account :=
  { id := 0, createdAt := 0, userUrl := "", handle := "", name := "", summary := ""
    profileImageUrl := "", siteUrl := "", feedUrl := "", feedLastUpdated := 0
    nextCheckDue := 0, pubKey := "" }

/-- A stored row of the accounts table.  `malformed` abstracts column data on which
rows.Scan into the Go Account struct fails. -/
structure AccountRow where
  id : Int
  createdAt : Int
  userUrl : String
  handle : String
  name : String
  summary : String
  profileImageUrl : String
  siteUrl : String
  feedUrl : String
  feedLastUpdated : Int
  nextCheckDue : Int
  pubKey : String
  privKey : String
  malformed : Bool
  deriving Repr, DecidableEq

/-- The dal.FeedPost struct as used by AddFeedPostIfNew (field Desription is the
source's own spelling).  The guid hash is an opaque dedup key, modelled as Int. -/
structure FeedPost where
  postGuidHash : Int
  postTime : Int
  link : String
  title : String
  desription : String
  deriving Repr, DecidableEq

/-- A stored row of the feed_posts table. -/
structure FeedPostRow where
  accountId : Int
  postGuidHash : Int
  postTime : Int
  link : String
  title : String
  desription : String
  deriving Repr, DecidableEq

/-- The dal.TootQueueItem struct / a stored row of the toot_queue table.  All columns
are bound with well-typed values by AddTootQueueItem, so scanning a queue row back
cannot fail. -/
structure TootQueueItem where
  id : Int
  sendingUser : String
  toInbox : String
  tootedAt : Int
  statusId : Int
  content : String
  deriving Repr, DecidableEq

/-- The sqlite database state: sys_params metadata (none = the sys_params table does
not exist; some v = it holds schema_ver = v), and the three tables the claims are
about.  Tables not touched by any claim (toots, followers) are omitted. -/
structure Db where
  sysParams : Option Nat
  accounts : List AccountRow
  feedPosts : List FeedPostRow
  tootQueue : List TootQueueItem
  deriving Repr, DecidableEq

/-- Result of the two insert-if-new operations: the store afterwards plus the Go
return values (isNew, err). -/
structure InsertResult where
  db : Db
  isNew : Bool
  err : Option GoErr
  deriving Repr, DecidableEq

instance (ε α : Type) [DecidableEq ε] [DecidableEq α] : DecidableEq (Except ε α) :=
  fun a b =>
    match a, b with
    | .ok x, .ok y => decidable_of_iff (x = y) (by simp)
    | .error x, .error y => decidable_of_iff (x = y) (by simp)
    | .ok _, .error _ => isFalse (by simp)
    | .error _, .ok _ => isFalse (by simp)

/-- The unique-constraint violation as returned by the go-sqlite3 driver: a
sqlite3.Error VALUE with Code 19 (constraint) and ExtendedCode 2067 (unique). -/
def uniqueViolation : GoErr := .sqliteValue 19 2067

/-- Go type assertion err.(sqlite3.Error): matches only a value-typed sqlite error. -/
def errAsSqlite3Error : GoErr → Option (Int × Int)
  | .sqliteValue c e => some (c, e)
  | _ => none

/-- Go type assertion err.(*sqlite3.Error): matches only a pointer-typed sqlite
error, which the driver never produces. -/
def errAsSqlite3ErrorPtr : GoErr → Option (Int × Int)
  | .sqlitePtr c e => some (c, e)
  | _ => none

/-- Engine semantics of the INSERT INTO accounts statement: the handle column has a
unique constraint (modelled from the spec, the schema scripts being absent from src),
whose violation yields the driver's value-typed error 19/2067. -/
def Db.insertAccount (db : Db) (row : AccountRow) : Except GoErr Db :=
  if db.accounts.any (fun r => r.handle == row.handle) then
    .error uniqueViolation
  else
    .ok { db with accounts := db.accounts ++ [row] }

/-- Engine semantics of the INSERT INTO feed_posts statement: (account_id,
post_guid_hash) has a unique constraint (modelled from the spec, the schema scripts
being absent from src). -/
def Db.insertFeedPost (db : Db) (row : FeedPostRow) : Except GoErr Db :=
  if db.feedPosts.any (fun r =>
      r.accountId == row.accountId && r.postGuidHash == row.postGuidHash) then
    .error uniqueViolation
  else
    .ok { db with feedPosts := db.feedPosts ++ [row] }

/-- Conversion of a well-formed stored row into the scanned Go struct. -/
def accountOfRow (row : AccountRow) : Account :=
  { id := row.id, createdAt := row.createdAt, userUrl := row.userUrl
    handle := row.handle, name := row.name, summary := row.summary
    profileImageUrl := row.profileImageUrl, siteUrl := row.siteUrl
    feedUrl := row.feedUrl, feedLastUpdated := row.feedLastUpdated
    nextCheckDue := row.nextCheckDue, pubKey := row.pubKey }

/-- rows.Scan of an accounts row into an Account struct: fails on malformed column
data, otherwise yields the row's fields. -/
def scanAccount (row : AccountRow) : Except GoErr Account :=
  if row.malformed then .error .scanFailure else .ok (accountOfRow row)

/-- GetAccount (repo.go lines 183-200): QueryRow on handle; sql.ErrNoRows is mapped
to (nil, nil); a scan failure is returned as an error. -/
def GetAccount (db : Db) (user : String) : Except GoErr (Option Account) :=
  match db.accounts.find? (fun r => r.handle == user) with
  | none => .ok none
  | some row =>
    match scanAccount row with
    | .ok a => .ok (some a)
    | .error e => .error e

/-- GetPrivKey (repo.go lines 202-215): QueryRow on handle selecting privkey;
sql.ErrNoRows is mapped to ("", nil). -/
def GetPrivKey (db : Db) (user : String) : Except GoErr String :=
  match db.accounts.find? (fun r => r.handle == user) with
  | none => .ok ""
  | some row => if row.malformed then .error .scanFailure else .ok row.privKey

/-- DeleteTootQueueItem (repo.go lines 417-420): DELETE FROM toot_queue WHERE id=?;
the statement succeeds whether or not a row matches. -/
def DeleteTootQueueItem (db : Db) (id : Int) : Db × Option GoErr :=
  ({ db with tootQueue := db.tootQueue.filter (fun t => t.id ≠ id) }, none)

/-- Row id assigned by the engine to a newly inserted accounts row (the claims do not
depend on the exact policy; successive ids are distinct from list positions). -/
def Db.nextAccountRowId (db : Db) : Int := Int.ofNat db.accounts.length + 1

/-- The row written by AddAccountIfNotExist's INSERT: it binds created_at, user_url,
handle, name, summary, profile_image_url, site_url, feed_url, pubkey and privkey;
id is store-assigned; the two feed timestamps are not in the column list and take
the schema default. -/
def insertedAccountRow (db : Db) (acct : Account) (privKey : String) : AccountRow :=
  { id := db.nextAccountRowId, createdAt := acct.createdAt, userUrl := acct.userUrl
    handle := acct.handle, name := acct.name, summary := acct.summary
    profileImageUrl := acct.profileImageUrl, siteUrl := acct.siteUrl
    feedUrl := acct.feedUrl, feedLastUpdated := 0, nextCheckDue := 0
    pubKey := acct.pubKey, privKey := privKey, malformed := false }

/-- AddAccountIfNotExist (repo.go lines 151-171).  isNew starts true; on an insert
error, the value-typed assertion err.(sqlite3.Error) is tried and, when Code=19 and
ExtendedCode=2067, isNew is set to false and GetAccount is called — its Account
result is DISCARDED (the Go source assigns it to the blank identifier); only its
error is kept as the call's error.  Any other error is returned with isNew=true. -/
def AddAccountIfNotExist (db : Db) (acct : Account) (privKey : String) : InsertResult :=
  match db.insertAccount (insertedAccountRow db acct privKey) with
  | .ok db2 => ⟨db2, true, none⟩
  | .error e =>
    match errAsSqlite3Error e with
    | some (code, ext) =>
      if code == 19 && ext == 2067 then
        match GetAccount db acct.handle with
        | .ok _ => ⟨db, false, none⟩
        | .error e2 => ⟨db, false, some e2⟩
      else ⟨db, true, some e⟩
    | none => ⟨db, true, some e⟩

/-- AddFeedPostIfNew (repo.go lines 361-386).  isNew has the Go zero value false and
is set true only on a successful insert.  On an insert error the POINTER-typed
assertion err.(*sqlite3.Error) is tried; since the driver returns sqlite3.Error by
value, the assertion never matches and the error falls through to the caller. -/
def AddFeedPostIfNew (db : Db) (accountId : Int) (post : FeedPost) : InsertResult :=
  match db.insertFeedPost { accountId := accountId, postGuidHash := post.postGuidHash
                            postTime := post.postTime, link := post.link
                            title := post.title, desription := post.desription } with
  | .ok db2 => ⟨db2, true, none⟩
  | .error e =>
    match errAsSqlite3ErrorPtr e with
    | some (code, ext) =>
      if code == 19 && ext == 2067 then ⟨db, false, none⟩
      else ⟨db, false, some e⟩
    | none => ⟨db, false, some e⟩

/-- What GetAccountToCheck's loop body leaves in the res struct: on a scan failure
the struct variable keeps (partially) unscanned zero values; the failure itself is
not observable in the result because the source overwrites the Scan error with
rows.Err() before testing it. -/
def looselyScannedAccount (row : AccountRow) : Account :=
  if row.malformed then zeroAccount else accountOfRow row

/-- GetAccountToCheck (repo.go lines 339-359): SELECT ... WHERE next_check_due<?
LIMIT 1, then a rows.Next loop.  The loop assigns the rows.Scan error to err and
immediately reassigns err from rows.Err() — which reports iteration failures, not
scan failures, and is nil over a well-delivered result set — so a scan failure never
triggers the early error return and the partially scanned struct is kept. -/
def GetAccountToCheck (db : Db) (checkDue : Int) : Except GoErr (Option Account) :=
  let rows := (db.accounts.filter (fun r => r.nextCheckDue < checkDue)).take 1
  .ok (rows.foldl (fun _ row => some (looselyScannedAccount row)) none)

/-- A well-formed stored account row under handle "h" whose display name is the
given string; used to compare two stores that differ only in the stored data. -/
def c1Row (nm : String) : AccountRow :=
  { id := 1, createdAt := 0, userUrl := "u", handle := "h", name := nm, summary := ""
    profileImageUrl := "", siteUrl := "", feedUrl := "", feedLastUpdated := 0
    nextCheckDue := 0, pubKey := "p", privKey := "k", malformed := false }

/-- A store whose only account is the "h" row with the given display name. -/
def c1Db (nm : String) : Db :=
  { sysParams := some 1, accounts := [c1Row nm], feedPosts := [], tootQueue := [] }

/-- The account value passed to the duplicate insertion attempt. -/
def c1Acct : Account :=
  { id := 0, createdAt := 0, userUrl := "", handle := "h", name := "", summary := ""
    profileImageUrl := "", siteUrl := "", feedUrl := "", feedLastUpdated := 0
    nextCheckDue := 0, pubKey := "" }

/-- The feed post used to exhibit the dead duplicate-handling branch. -/
def c2Post : FeedPost :=
  { postGuidHash := 7, postTime := 3, link := "l", title := "t", desription := "d" }

/-- An empty store at schema version 1. -/
def emptyDb : Db := { sysParams := some 1, accounts := [], feedPosts := [], tootQueue := [] }

/-- A stored account row that is due for a check but whose column data fails Scan. -/
def c9Row : AccountRow :=
  { id := 4, createdAt := 0, userUrl := "", handle := "feed", name := "", summary := ""
    profileImageUrl := "", siteUrl := "", feedUrl := "", feedLastUpdated := 0
    nextCheckDue := 0, pubKey := "", privKey := "", malformed := true }

/-- A store whose only account is the malformed due row. -/
def c9Db : Db := { sysParams := some 1, accounts := [c9Row], feedPosts := [], tootQueue := [] }

/-- The modulus of Go's uint64 arithmetic. -/
def uint64Mod : Nat := 2 ^ 64

/-- NewRepo (repo.go line 65) seeds the counter with uint64(time.Now().UnixNano()):
the int64 nanosecond clock reinterpreted in uint64, i.e. reduced modulo 2^64. -/
def newRepoNextId (nowUnixNano : Int) : Nat := (nowUnixNano % (2 ^ 64 : Int)).toNat

/-- GetNextId (repo.go lines 71-77): under the mutex, res := nextId + 1 in uint64
arithmetic; res is stored back and returned. -/
def GetNextId (nextId : Nat) : Nat × Nat :=
  let res := (nextId + 1) % uint64Mod
  (res, res)

/-- The stored counter after n serialized GetNextId calls from the given seed. -/
def repoStateAfter (seed : Nat) : Nat → Nat
  | 0 => seed
  | n + 1 => (GetNextId (repoStateAfter seed n)).2

/-- The value returned by call number k (0-based) in a serialized call sequence. -/
def nextIdValue (seed k : Nat) : Nat := (GetNextId (repoStateAfter seed k)).1

/-- A wall-clock seed: uint64(UnixNano) for a date in October 2025. -/
def c4Seed : Nat := 1760000000000000000

/-- A well-formed stored account row with handle "due" and nextCheckDue = 3. -/
def c7Row : AccountRow :=
  { id := 2, createdAt := 0, userUrl := "", handle := "due", name := "", summary := ""
    profileImageUrl := "", siteUrl := "", feedUrl := "", feedLastUpdated := 1
    nextCheckDue := 3, pubKey := "", privKey := "", malformed := false }

/-- A store whose only account is the "due" row. -/
def c7Db : Db := { sysParams := some 1, accounts := [c7Row], feedPosts := [], tootQueue := [] }

/-- The comparison realised by ORDER BY id ASC. -/
def tqiLe (a b : TootQueueItem) : Prop := a.id ≤ b.id

/-- Strict id comparison; with pairwise distinct ids the sorted order is unique. -/
def tqiLt (a b : TootQueueItem) : Prop := a.id < b.id

instance : DecidableRel tqiLe := fun a b => inferInstanceAs (Decidable (a.id ≤ b.id))

instance : IsTotal TootQueueItem tqiLe := ⟨fun a b => Int.le_total a.id b.id⟩

instance : IsTrans TootQueueItem tqiLe := ⟨fun _ _ _ h1 h2 => le_trans h1 h2⟩

instance : IsAntisymm TootQueueItem tqiLt := ⟨fun _ _ h1 h2 => (lt_asymm h1 h2).elim⟩

/-- GetTootQueueItems (repo.go lines 395-415): SELECT id, ... FROM toot_queue WHERE
id>? ORDER BY id ASC LIMIT ?.  After a successful query the source allocates
make with capacity maxCount, which panics for a negative maxCount (modelled as
none); otherwise the delivered rows are appended in order.  Queue rows are fully
typed, so scanning cannot fail.  The id column is the table's auto-increasing key
(modelled from the spec, the schema scripts being absent from src), so ORDER BY id
ASC is realised by any sort under tqiLe. -/
def GetTootQueueItems (db : Db) (aboveId maxCount : Int) : Option (List TootQueueItem) :=
  if maxCount < 0 then none
  else some (((db.tootQueue.filter (fun t => aboveId < t.id)).insertionSort tqiLe).take
    maxCount.toNat)

/-- A concrete queue holding ids 2, 1, 3 in insertion order. -/
def c3Db : Db :=
  { sysParams := some 1, accounts := [], feedPosts := []
    tootQueue := [{ id := 2, sendingUser := "a", toInbox := "i", tootedAt := 0
                    statusId := 10, content := "x" },
                  { id := 1, sendingUser := "b", toInbox := "i", tootedAt := 0
                    statusId := 11, content := "y" },
                  { id := 3, sendingUser := "c", toInbox := "i", tootedAt := 0
                    statusId := 12, content := "z" }] }

/-- The page returned by Drain(aboveId=0, maxCount=2) on c3Db: ids 1 then 2. -/
def c3l : List TootQueueItem :=
  [{ id := 1, sendingUser := "b", toInbox := "i", tootedAt := 0
     statusId := 11, content := "y" },
   { id := 2, sendingUser := "a", toInbox := "i", tootedAt := 0
     statusId := 10, content := "x" }]

/-- The compiled-in target schema version (repo.go line 14). -/
def schemaVer : Nat := 1

/-- Modelled from the spec: the migration scripts scripts/create-NN.sql are embedded
repository resources whose contents are not under src.  They are modelled as an
abstract registry mapping a version number to the schema-change batch it applies:
none means the script cannot be read (fatal), and a batch returning none means its
execution failed (fatal). -/
def ScriptReg : Type := Nat → Option (Db → Option Db)

/-- The configuration fields InitUpdateDb consumes: the host plus the built-in Birb
user's bootstrap descriptor (publish timestamp, handle, key material). -/
structure Config where
  host : String
  birbUser : String
  birbPublished : Int
  birbPubKey : String
  birbPrivKey : String

/-- IdBuilder (shared/id_builder.go lines 25-27). -/
structure IdBuilder where
  Host : String

/-- UserUrl (shared/id_builder.go lines 37-39). -/
def IdBuilder.UserUrl (idb : IdBuilder) (user : String) : String :=
  "https://" ++ idb.Host ++ "/u/" ++ user

/-- How InitUpdateDb determines the current version (repo.go lines 81-104): absence
of the sys_params table means version 0; otherwise schema_ver is read.  (The two
reads panic on failure in the source; reads of an in-memory store cannot fail.) -/
def dbVerOf (db : Db) : Nat :=
  match db.sysParams with
  | none => 0
  | some v => v

/-- The UPDATE sys_params SET val=? WHERE name='schema_ver' statement (repo.go line
119): errors — a panic in the source — if the table does not exist; otherwise
persists the version.  That the schema_ver row exists once the table does is
modelled from the spec (the create script seeds the metadata area). -/
def updateSchemaVer (db : Db) (v : Nat) : Option Db :=
  match db.sysParams with
  | none => none
  | some _ => some { db with sysParams := some v }

/-- One pass of the migration loop body per remaining version (the fuel argument
counts target - i, so the loop runs while i < target exactly as the source's
for-loop does): read script i+1 (failure fatal), execute it as one batch (failure
fatal), persist i+1 (failure fatal), continue with i+1. -/
def migrateAux (reg : ScriptReg) (db : Db) (i : Nat) : Nat → Option Db
  | 0 => some db
  | Nat.succ n =>
    match reg (i + 1) with
    | none => none
    | some f =>
      match f db with
      | none => none
      | some db2 =>
        match updateSchemaVer db2 (i + 1) with
        | none => none
        | some db3 => migrateAux reg db3 (i + 1) n

/-- The migration loop of InitUpdateDb (repo.go lines 105-124). -/
def migrateLoop (reg : ScriptReg) (db : Db) (i target : Nat) : Option Db :=
  migrateAux reg db i (target - i)

/-- Follows the spec's words, for refinement: for each version v from current+1 up
to the target, in order: locate the script registered for v (missing is fatal),
execute it as a single batch (failure fatal), then persist v as the new current
version (failure fatal). -/
def migrateSpec (reg : ScriptReg) (db : Db) (cur target : Nat) : Option Db :=
  (List.range' (cur + 1) (target - cur)).foldlM
    (fun d v =>
      match reg v with
      | none => none
      | some f =>
        match f d with
        | none => none
        | some d2 => updateSchemaVer d2 v) db

/-- mustAddBuiltInUsers (repo.go lines 135-149): INSERT of the built-in Birb
account, a panic on error.  The row binds created_at, user_url (via
IdBuilder.UserUrl), handle, pubkey and privkey; the remaining columns take schema
defaults. -/
def birbRow (cfg : Config) (db : Db) : AccountRow :=
  { id := db.nextAccountRowId, createdAt := cfg.birbPublished
    userUrl := (IdBuilder.mk cfg.host).UserUrl cfg.birbUser
    handle := cfg.birbUser, name := "", summary := "", profileImageUrl := ""
    siteUrl := "", feedUrl := "", feedLastUpdated := 0, nextCheckDue := 0
    pubKey := cfg.birbPubKey, privKey := cfg.birbPrivKey, malformed := false }

/-- The body of mustAddBuiltInUsers: the INSERT, with a panic (none) on error. -/
def mustAddBuiltInUsers (cfg : Config) (db : Db) : Option Db :=
  match db.insertAccount (birbRow cfg db) with
  | .ok db2 => some db2
  | .error _ => none

/-- The account literal of the DBG lines (repo.go lines 130-132):
Account{Handle: "handle"}, every other field a Go zero value. -/
def dbgAccount : Account :=
  { zeroAccount with handle := "handle" }

/-- InitUpdateDb (repo.go lines 79-133): determine the current version, run the
migration loop up to schemaVer (any failure is fatal, modelled none), seed the
built-in users exactly when the version was 0, then — the DBG lines — call
AddAccountIfNotExist twice for handle "handle" with private key "xyz", discarding
both calls' results. -/
def InitUpdateDb (reg : ScriptReg) (cfg : Config) (db : Db) : Option Db :=
  match migrateLoop reg db (dbVerOf db) schemaVer with
  | none => none
  | some db1 =>
    match (if dbVerOf db = 0 then mustAddBuiltInUsers cfg db1 else some db1) with
    | none => none
    | some db2 =>
      some (AddAccountIfNotExist
        (AddAccountIfNotExist db2 dbgAccount "xyz").db dbgAccount "xyz").db

/-- A registry with no scripts: startup at the target version never consults it. -/
def c5Reg : ScriptReg := fun _ => none

/-- A concrete bootstrap configuration. -/
def c10Cfg : Config :=
  { host := "ex.org", birbUser := "birb", birbPublished := 0
    birbPubKey := "pub", birbPrivKey := "priv" }

/-- An empty store already at schema version 1. -/
def c10Db : Db := { sysParams := some 1, accounts := [], feedPosts := [], tootQueue := [] }

/-- The row the DBG lines insert into an empty store. -/
def c10Row : AccountRow :=
  { id := 1, createdAt := 0, userUrl := "", handle := "handle", name := "", summary := ""
    profileImageUrl := "", siteUrl := "", feedUrl := "", feedLastUpdated := 0
    nextCheckDue := 0, pubKey := "", privKey := "xyz", malformed := false }

/-- Claim C6: for a handle not present in the store, GetAccount returns (nil, nil)
and GetPrivKey returns ("", nil); absence is never surfaced as a failure. -/
theorem getAccount_getPrivKey_absent (db : Db) (user : String)
    (h : ∀ r ∈ db.accounts, r.handle ≠ user) :
    GetAccount db user = .ok none ∧ GetPrivKey db user = .ok "" := by
  have hfind : db.accounts.find? (fun r => r.handle == user) = none := by
    apply List.find?_eq_none.mpr
    intro r hr
    simpa using h r hr
  constructor
  · simp [GetAccount, hfind]
  · simp [GetPrivKey, hfind]

/-- Witness for C6: a concrete store holding one account under a different handle. -/
theorem getAccount_getPrivKey_absent_witness :
    GetAccount { sysParams := some 1
                 accounts := [{ id := 1, createdAt := 0, userUrl := "u", handle := "other"
                                name := "", summary := "", profileImageUrl := ""
                                siteUrl := "", feedUrl := "", feedLastUpdated := 0
                                nextCheckDue := 0, pubKey := "p", privKey := "k"
                                malformed := false }]
                 feedPosts := [], tootQueue := [] } "absent" = .ok none
    ∧ GetPrivKey { sysParams := some 1
                   accounts := [{ id := 1, createdAt := 0, userUrl := "u", handle := "other"
                                  name := "", summary := "", profileImageUrl := ""
                                  siteUrl := "", feedUrl := "", feedLastUpdated := 0
                                  nextCheckDue := 0, pubKey := "p", privKey := "k"
                                  malformed := false }]
                   feedPosts := [], tootQueue := [] } "absent" = .ok "" :=
  getAccount_getPrivKey_absent _ "absent" (by decide)

/-- Claim C8: deleting a toot-queue id that is not present returns no error and
leaves the store unchanged. -/
theorem deleteTootQueueItem_absent (db : Db) (id : Int)
    (h : ∀ t ∈ db.tootQueue, t.id ≠ id) :
    DeleteTootQueueItem db id = (db, none) := by
  unfold DeleteTootQueueItem
  have : db.tootQueue.filter (fun t => t.id ≠ id) = db.tootQueue := by
    apply List.filter_eq_self.mpr
    intro t ht
    simpa using h t ht
  rw [this]

/-- Witness for C8: deleting id 2 from a queue holding only id 1. -/
theorem deleteTootQueueItem_absent_witness :
    DeleteTootQueueItem { sysParams := some 1, accounts := [], feedPosts := []
                          tootQueue := [{ id := 1, sendingUser := "a", toInbox := "b"
                                          tootedAt := 0, statusId := 0, content := "c" }] } 2
    = ({ sysParams := some 1, accounts := [], feedPosts := []
         tootQueue := [{ id := 1, sendingUser := "a", toInbox := "b"
                         tootedAt := 0, statusId := 0, content := "c" }] }, none) :=
  deleteTootQueueItem_absent _ 2 (by decide)

/-- Counterexample to claim C1 as stated.  The claim says the duplicate-handle call
"fetches and returns the existing account's data identical to the first insertion".
On two concrete stores that differ only in the stored account's display name ("A"
versus "B"), the call's entire Go return value (isNew, err) is identical and each
store is left unchanged, so no part of what the call returns carries the existing
account's data: the source fetches via GetAccount but assigns the fetched Account to
the blank identifier, and the function's signature returns only (isNew, err). -/
theorem addAccountIfNotExist_c1_counterexample :
    ((AddAccountIfNotExist (c1Db "A") c1Acct "k2").isNew,
      (AddAccountIfNotExist (c1Db "A") c1Acct "k2").err)
      = ((AddAccountIfNotExist (c1Db "B") c1Acct "k2").isNew,
          (AddAccountIfNotExist (c1Db "B") c1Acct "k2").err)
    ∧ GetAccount (c1Db "A") "h" ≠ GetAccount (c1Db "B") "h"
    ∧ (AddAccountIfNotExist (c1Db "A") c1Acct "k2").db = c1Db "A" := by decide

/-- Claim C1 as amended: when the store already holds exactly one, well-formed row
for the handle, AddAccountIfNotExist detects the unique-constraint violation on
handle (via the value-typed sqlite3.Error with Code 19 / ExtendedCode 2067,
distinguishing it from other failures), returns no error, reports isNew=false,
fetches the existing account but discards the fetched data, leaves the store
unchanged, and the store still holds exactly one row for that handle. -/
theorem addAccountIfNotExist_existing (db : Db) (acct : Account) (privKey : String)
    (row : AccountRow) (hrow : row ∈ db.accounts) (hh : row.handle = acct.handle)
    (hwf : row.malformed = false)
    (hu : (db.accounts.filter (fun x => x.handle == acct.handle)).length = 1) :
    (AddAccountIfNotExist db acct privKey).err = none
    ∧ (AddAccountIfNotExist db acct privKey).isNew = false
    ∧ (AddAccountIfNotExist db acct privKey).db = db
    ∧ ((AddAccountIfNotExist db acct privKey).db.accounts.filter
        (fun x => x.handle == acct.handle)).length = 1 := by
  have honly : ∀ x ∈ db.accounts, x.handle = acct.handle → x = row := by
    obtain ⟨y, hy⟩ := List.length_eq_one.mp hu
    intro x hx hxh
    have hxf : x ∈ db.accounts.filter (fun x => x.handle == acct.handle) := by
      rw [List.mem_filter]; exact ⟨hx, by simp [hxh]⟩
    have hrf : row ∈ db.accounts.filter (fun x => x.handle == acct.handle) := by
      rw [List.mem_filter]; exact ⟨hrow, by simp [hh]⟩
    rw [hy] at hxf hrf
    simp only [List.mem_singleton] at hxf hrf
    rw [hxf, hrf]
  have hins : db.insertAccount (insertedAccountRow db acct privKey)
      = .error uniqueViolation := by
    have hany : db.accounts.any
        (fun r => r.handle == (insertedAccountRow db acct privKey).handle) = true := by
      rw [List.any_eq_true]
      exact ⟨row, hrow, by simp [insertedAccountRow, hh]⟩
    simp [Db.insertAccount, hany]
  have hget : GetAccount db acct.handle = .ok (some (accountOfRow row)) := by
    unfold GetAccount
    cases hfind : db.accounts.find? (fun r => r.handle == acct.handle) with
    | none =>
      have hcontra := List.find?_eq_none.mp hfind row hrow
      simp [hh] at hcontra
    | some r2 =>
      have hr2m : r2 ∈ db.accounts := List.mem_of_find?_eq_some hfind
      have hr2h : r2.handle = acct.handle := by simpa using List.find?_some hfind
      rw [honly r2 hr2m hr2h]
      simp [scanAccount, hwf]
  have hres : AddAccountIfNotExist db acct privKey = ⟨db, false, none⟩ := by
    simp [AddAccountIfNotExist, hins, uniqueViolation, errAsSqlite3Error, hget]
  rw [hres]
  exact ⟨rfl, rfl, rfl, hu⟩

/-- Witness for the amended C1 theorem at a concrete store with one row for "h". -/
theorem addAccountIfNotExist_existing_witness :
    (AddAccountIfNotExist (c1Db "A") c1Acct "k2").err = none
    ∧ (AddAccountIfNotExist (c1Db "A") c1Acct "k2").isNew = false
    ∧ (AddAccountIfNotExist (c1Db "A") c1Acct "k2").db = c1Db "A"
    ∧ ((AddAccountIfNotExist (c1Db "A") c1Acct "k2").db.accounts.filter
        (fun x => x.handle == c1Acct.handle)).length = 1 :=
  addAccountIfNotExist_existing (c1Db "A") c1Acct "k2" (c1Row "A")
    (by decide) (by decide) (by decide) (by decide)

/-- Claim C2, evaluated at the failing input.  The first insertion of (accountId=1,
guidHash=7) succeeds with isNew=true; the second call hits the unique constraint,
but because the source type-asserts err.(*sqlite3.Error) while the driver returns a
value-typed sqlite3.Error (exactly as the sibling AddAccountIfNotExist asserts), the
duplicate-handling branch never matches: the call returns the constraint violation
as its error instead of swallowing it.  The table does still hold exactly one row
for the pair. -/
theorem addFeedPostIfNew_second_call_errors :
    (AddFeedPostIfNew emptyDb 1 c2Post).isNew = true
    ∧ (AddFeedPostIfNew emptyDb 1 c2Post).err = none
    ∧ (AddFeedPostIfNew (AddFeedPostIfNew emptyDb 1 c2Post).db 1 c2Post).isNew = false
    ∧ (AddFeedPostIfNew (AddFeedPostIfNew emptyDb 1 c2Post).db 1 c2Post).err
        = some uniqueViolation
    ∧ (AddFeedPostIfNew (AddFeedPostIfNew emptyDb 1 c2Post).db 1 c2Post).db.feedPosts
        = (AddFeedPostIfNew emptyDb 1 c2Post).db.feedPosts
    ∧ (AddFeedPostIfNew emptyDb 1 c2Post).db.feedPosts.length = 1 := by decide

/-- Claim C9, evaluated at the failing input.  The single account is due
(nextCheckDue = 0 < 5) but its row fails rows.Scan; the claim says such a
malformed-data failure is returned to the caller as an error, yet GetAccountToCheck
reports success and hands back the (partially) unscanned zero-valued struct, because
the source overwrites the Scan error with rows.Err() before testing it. -/
theorem getAccountToCheck_swallows_scan_failure :
    scanAccount c9Row = .error .scanFailure
    ∧ GetAccountToCheck c9Db 5 = .ok (some zeroAccount) := by decide

/-- Closed form of the counter: uint64 increment from a reduced seed. -/
theorem repoStateAfter_eq (seed : Nat) (hs : seed < uint64Mod) (k : Nat) :
    repoStateAfter seed k = (seed + k) % uint64Mod := by
  induction k with
  | zero => simpa [repoStateAfter] using (Nat.mod_eq_of_lt hs).symm
  | succ n ih =>
    simp only [repoStateAfter, GetNextId, ih]
    rw [Nat.mod_add_mod, Nat.add_assoc]

/-- Closed form of the returned values. -/
theorem nextIdValue_eq (seed : Nat) (hs : seed < uint64Mod) (k : Nat) :
    nextIdValue seed k = (seed + k + 1) % uint64Mod := by
  simp only [nextIdValue, GetNextId, repoStateAfter_eq seed hs k]
  rw [Nat.mod_add_mod]

/-- The reduced seed is a valid uint64. -/
theorem newRepoNextId_lt (now : Int) : newRepoNextId now < uint64Mod := by
  unfold newRepoNextId uint64Mod
  have h1 : (0 : Int) ≤ now % (2 ^ 64 : Int) :=
    Int.emod_nonneg now (by norm_num)
  have h2 : now % (2 ^ 64 : Int) < (2 ^ 64 : Int) :=
    Int.emod_lt_of_pos now (by norm_num)
  omega

/-- Counterexample to claim C4 as stated.  The claim asserts that for EVERY N, N
calls return N distinct, strictly increasing values, each exactly the previous value
plus 1.  The counter is a uint64, so from the October-2025 seed the call numbered
uint64Mod - c4Seed - 2 returns 2^64 - 1 and the next call wraps to 0: a later call
returns a smaller value, and not the previous value plus 1. -/
theorem getNextId_c4_counterexample :
    nextIdValue c4Seed (uint64Mod - c4Seed - 1) < nextIdValue c4Seed (uint64Mod - c4Seed - 2)
    ∧ nextIdValue c4Seed (uint64Mod - c4Seed - 1)
        ≠ nextIdValue c4Seed (uint64Mod - c4Seed - 2) + 1 := by
  have hs : c4Seed < uint64Mod := by unfold c4Seed uint64Mod; norm_num
  rw [nextIdValue_eq c4Seed hs, nextIdValue_eq c4Seed hs]
  unfold c4Seed uint64Mod
  norm_num

/-- Claim C4 as amended: the counter is seeded once at construction from the
wall-clock nanosecond time reduced to uint64, and as long as seed + N stays below
2^64 (which holds for any realistic seed and call count, wraparound needing about
1.6e19 calls), every call returns exactly the stored value plus 1, the k-th call
returns seed + k + 1, the values are strictly increasing in call order, and any N
calls return N distinct values. -/
theorem getNextId_no_wrap (now : Int) (n : Nat)
    (h : newRepoNextId now + n < uint64Mod) :
    (∀ k, k < n → nextIdValue (newRepoNextId now) k
        = repoStateAfter (newRepoNextId now) k + 1)
    ∧ (∀ k, k < n → nextIdValue (newRepoNextId now) k = newRepoNextId now + k + 1)
    ∧ (∀ j k, j < k → k < n →
        nextIdValue (newRepoNextId now) j < nextIdValue (newRepoNextId now) k)
    ∧ (∀ j k, j < n → k < n →
        nextIdValue (newRepoNextId now) j = nextIdValue (newRepoNextId now) k → j = k) := by
  have hs := newRepoNextId_lt now
  have hval : ∀ k, k < n → nextIdValue (newRepoNextId now) k = newRepoNextId now + k + 1 := by
    intro k hk
    rw [nextIdValue_eq _ hs]
    exact Nat.mod_eq_of_lt (by omega)
  refine ⟨?_, hval, ?_, ?_⟩
  · intro k hk
    rw [hval k hk, repoStateAfter_eq _ hs, Nat.mod_eq_of_lt (by omega)]
  · intro j k hjk hk
    rw [hval j (by omega), hval k hk]
    omega
  · intro j k hj hk heq
    rw [hval j hj, hval k hk] at heq
    omega

/-- Witness for the amended C4 theorem: three calls from the seed for clock value 100. -/
theorem getNextId_no_wrap_witness :
    newRepoNextId 100 + 3 < uint64Mod
    ∧ ((∀ k, k < 3 → nextIdValue (newRepoNextId 100) k
          = repoStateAfter (newRepoNextId 100) k + 1)
      ∧ (∀ k, k < 3 → nextIdValue (newRepoNextId 100) k = newRepoNextId 100 + k + 1)
      ∧ (∀ j k, j < k → k < 3 →
          nextIdValue (newRepoNextId 100) j < nextIdValue (newRepoNextId 100) k)
      ∧ (∀ j k, j < 3 → k < 3 →
          nextIdValue (newRepoNextId 100) j = nextIdValue (newRepoNextId 100) k → j = k)) :=
  ⟨by decide, getNextId_no_wrap 100 3 (by decide)⟩

/-- Claim C7: on a store whose rows scan cleanly, GetAccountToCheck(t) returns
absent (and no error) when no stored account has nextCheckDue strictly earlier than
t, and otherwise returns success with a single account that is the scan of some
stored row and whose nextCheckDue is strictly earlier than t.  The well-formedness
hypothesis excludes malformed rows, on which the separately reported scan-error
swallowing of GetAccountToCheck can hand back a zero-valued struct. -/
theorem getAccountToCheck_contract (db : Db) (t : Int)
    (hwf : ∀ r ∈ db.accounts, r.malformed = false) :
    ((∀ r ∈ db.accounts, ¬ r.nextCheckDue < t) → GetAccountToCheck db t = .ok none)
    ∧ (∀ r0 ∈ db.accounts, r0.nextCheckDue < t →
        ∃ a, GetAccountToCheck db t = .ok (some a) ∧ a.nextCheckDue < t
          ∧ ∃ r ∈ db.accounts, a = accountOfRow r) := by
  constructor
  · intro hnone
    have hf : db.accounts.filter (fun r => decide (r.nextCheckDue < t)) = [] := by
      rw [List.filter_eq_nil_iff]
      intro r hr
      simpa using hnone r hr
    simp [GetAccountToCheck, hf]
  · intro r0 hr0 hdue
    cases hf : db.accounts.filter (fun r => decide (r.nextCheckDue < t)) with
    | nil =>
      exfalso
      have hmem : r0 ∈ db.accounts.filter (fun r => decide (r.nextCheckDue < t)) := by
        rw [List.mem_filter]
        exact ⟨hr0, by simpa using hdue⟩
      rw [hf] at hmem
      simp at hmem
    | cons hd tl =>
      have hhd : hd ∈ db.accounts.filter (fun r => decide (r.nextCheckDue < t)) := by
        rw [hf]
        exact List.mem_cons_self _ _
      rw [List.mem_filter] at hhd
      refine ⟨accountOfRow hd, ?_, ?_, hd, hhd.1, rfl⟩
      · simp [GetAccountToCheck, hf, looselyScannedAccount, hwf hd hhd.1]
      · simpa [accountOfRow] using hhd.2

/-- Witness for C7 on concrete stores: the "due" row qualifies at t = 5. -/
theorem getAccountToCheck_contract_witness :
    ((∀ r ∈ c7Db.accounts, ¬ r.nextCheckDue < 5) → GetAccountToCheck c7Db 5 = .ok none)
    ∧ (∀ r0 ∈ c7Db.accounts, r0.nextCheckDue < 5 →
        ∃ a, GetAccountToCheck c7Db 5 = .ok (some a) ∧ a.nextCheckDue < 5
          ∧ ∃ r ∈ c7Db.accounts, a = accountOfRow r) :=
  getAccountToCheck_contract c7Db 5 (by decide)

/-- Sorting a queue fragment with pairwise distinct ids yields a strictly
id-increasing list. -/
theorem insertionSort_tqiLt_of_nodup (l : List TootQueueItem)
    (h : (l.map TootQueueItem.id).Nodup) :
    (l.insertionSort tqiLe).Pairwise tqiLt := by
  have hperm : List.Perm (l.insertionSort tqiLe) l := List.perm_insertionSort tqiLe l
  have hsorted : (l.insertionSort tqiLe).Pairwise tqiLe := List.sorted_insertionSort tqiLe l
  have hnodup : ((l.insertionSort tqiLe).map TootQueueItem.id).Nodup :=
    ((hperm.map TootQueueItem.id).nodup_iff).mpr h
  have hne : (l.insertionSort tqiLe).Pairwise (fun a b => a.id ≠ b.id) :=
    List.pairwise_map.mp hnodup
  exact (hsorted.and hne).imp (fun hc => lt_of_le_of_ne hc.1 hc.2)

/-- In a list that is pairwise tqiLe, every member's id is at most the last
element's id. -/
theorem mem_id_le_getLast :
    ∀ (l : List TootQueueItem), l.Pairwise tqiLe → ∀ (hne : l ≠ []),
      ∀ x ∈ l, x.id ≤ (l.getLast hne).id
  | [], _, hne, _, _ => absurd rfl hne
  | [a], _, _, x, hx => by
    simp only [List.mem_singleton] at hx
    simp [hx, List.getLast]
  | a :: b :: t, hp, _, x, hx => by
    have htne : (b :: t) ≠ [] := List.cons_ne_nil _ _
    rw [List.getLast_cons htne]
    rcases List.mem_cons.mp hx with hxa | hxt
    · subst hxa
      exact List.rel_of_pairwise_cons hp (List.getLast_mem htne)
    · exact mem_id_le_getLast (b :: t) hp.of_cons htne x hxt

/-- Core of the drain contract: the prefix of length k of the id-sorted filtered
queue is exactly the k lowest qualifying items, and the items above its last id are
exactly the remaining sorted suffix. -/
theorem drain_take_spec (q : List TootQueueItem) (aboveId : Int) (k : Nat)
    (hnd : (q.map TootQueueItem.id).Nodup) (s l : List TootQueueItem)
    (hs : s = (q.filter (fun t => aboveId < t.id)).insertionSort tqiLe)
    (hl : l = s.take k) :
    l.length = min k (q.filter (fun t => aboveId < t.id)).length
    ∧ (∀ t ∈ l, aboveId < t.id)
    ∧ l.Pairwise tqiLt
    ∧ (∀ t ∈ l, ∀ u ∈ q, aboveId < u.id → u ∉ l → t.id < u.id)
    ∧ (∀ hne : l ≠ [],
        (q.filter (fun t => (l.getLast hne).id < t.id)).insertionSort tqiLe
          = s.drop l.length) := by
  have hperm : List.Perm s (q.filter (fun t => aboveId < t.id)) := by
    rw [hs]; exact List.perm_insertionSort tqiLe _
  have hsorted : s.Pairwise tqiLe := by
    rw [hs]; exact List.sorted_insertionSort tqiLe _
  have hfnd : ((q.filter (fun t => aboveId < t.id)).map TootQueueItem.id).Nodup :=
    hnd.sublist ((List.filter_sublist q).map TootQueueItem.id)
  have hstrict : s.Pairwise tqiLt := by
    rw [hs]; exact insertionSort_tqiLt_of_nodup _ hfnd
  have hlsub : List.Sublist l s := by
    rw [hl]; exact List.take_sublist k s
  have hmemf : ∀ t ∈ l, t ∈ q.filter (fun t2 => aboveId < t2.id) := fun t ht =>
    hperm.mem_iff.mp (hlsub.subset ht)
  have habove : ∀ t ∈ l, aboveId < t.id := by
    intro t ht
    have hmf := List.mem_filter.mp (hmemf t ht)
    simpa using hmf.2
  have hlen0 : l.length = min k s.length := by
    rw [hl]; exact List.length_take ..
  have htake : s.take l.length = l := by
    rw [hl, List.length_take]
    exact List.take_eq_take.mpr (by omega)
  have hsplit : l ++ s.drop l.length = s := by
    conv_rhs => rw [← List.take_append_drop l.length s, htake]
  have hcross : ∀ x ∈ l, ∀ y ∈ s.drop l.length, x.id < y.id := by
    intro x hx y hy
    rw [← htake] at hx
    exact List.Sorted.rel_of_mem_take_of_mem_drop hstrict hx hy
  refine ⟨?_, habove, ?_, ?_, ?_⟩
  · rw [hlen0, hperm.length_eq]
  · exact hstrict.sublist hlsub
  · intro t ht u hu hup hunl
    have hus : u ∈ s := hperm.mem_iff.mpr (List.mem_filter.mpr ⟨hu, by simpa using hup⟩)
    rw [← hsplit] at hus
    rcases List.mem_append.mp hus with h1 | h2
    · exact absurd h1 hunl
    · exact hcross t ht u h2
  · intro hne
    have hlastl : l.getLast hne ∈ l := List.getLast_mem hne
    have hlast_above : aboveId < (l.getLast hne).id := habove _ hlastl
    have hff : q.filter (fun t => (l.getLast hne).id < t.id)
        = (q.filter (fun t => aboveId < t.id)).filter
            (fun t => (l.getLast hne).id < t.id) := by
      rw [List.filter_filter]
      apply List.filter_congr
      intro x hx
      by_cases hc : (l.getLast hne).id < x.id
      · simp [hc, lt_trans hlast_above hc]
      · simp [hc]
    have hl_none : l.filter (fun t => (l.getLast hne).id < t.id) = [] := by
      rw [List.filter_eq_nil_iff]
      intro x hx
      have hle : x.id ≤ (l.getLast hne).id :=
        mem_id_le_getLast l (hsorted.sublist hlsub) hne x hx
      simp only [decide_eq_true_eq]
      omega
    have hd_all : (s.drop l.length).filter (fun t => (l.getLast hne).id < t.id)
        = s.drop l.length := by
      rw [List.filter_eq_self]
      intro x hx
      simpa using hcross _ hlastl x hx
    have hfs : s.filter (fun t => (l.getLast hne).id < t.id) = s.drop l.length := by
      conv_lhs => rw [← hsplit]
      rw [List.filter_append, hl_none, hd_all, List.nil_append]
    have hB1 : List.Perm
        ((q.filter (fun t => (l.getLast hne).id < t.id)).insertionSort tqiLe)
        (q.filter (fun t => (l.getLast hne).id < t.id)) :=
      List.perm_insertionSort tqiLe _
    have hB2 : List.Perm (q.filter (fun t => (l.getLast hne).id < t.id))
        (s.drop l.length) := by
      rw [hff, ← hfs]
      exact (hperm.filter _).symm
    have hBnd : ((q.filter (fun t => (l.getLast hne).id < t.id)).map
        TootQueueItem.id).Nodup :=
      hnd.sublist ((List.filter_sublist q).map TootQueueItem.id)
    have hBstrict := insertionSort_tqiLt_of_nodup
      (q.filter (fun t => (l.getLast hne).id < t.id)) hBnd
    have hDstrict : (s.drop l.length).Pairwise tqiLt :=
      hstrict.sublist (List.drop_sublist _ _)
    exact List.eq_of_perm_of_sorted (hB1.trans hB2) hBstrict hDstrict

/-- Claim C3: a returned drain page has min(maxCount, qualifying) items, each with
id strictly above the cursor, strictly ascending by id; it consists of the lowest
qualifying ids (every qualifying item left out has a larger id than every returned
item); and draining again from the last returned id yields exactly the remaining
sorted suffix — in particular with k+5 qualifying items, Drain(0,k) returns the k
lowest and Drain(last,10) returns the remaining 5.  Distinct ids come from the id
column being the table's key; a negative maxCount makes the Go function panic
before returning (modelled none), hence the some hypothesis. -/
theorem getTootQueueItems_contract (db : Db) (aboveId maxCount : Int)
    (hnd : (db.tootQueue.map TootQueueItem.id).Nodup) (l : List TootQueueItem)
    (hres : GetTootQueueItems db aboveId maxCount = some l) :
    l.length = min maxCount.toNat (db.tootQueue.filter (fun t => aboveId < t.id)).length
    ∧ (∀ t ∈ l, aboveId < t.id)
    ∧ l.Pairwise tqiLt
    ∧ (∀ t ∈ l, ∀ u ∈ db.tootQueue, aboveId < u.id → u ∉ l → t.id < u.id)
    ∧ (∀ (hne : l ≠ []) (m : Int), 0 ≤ m →
        GetTootQueueItems db (l.getLast hne).id m
          = some ((((db.tootQueue.filter (fun t => aboveId < t.id)).insertionSort
              tqiLe).drop l.length).take m.toNat)) := by
  have hmc : ¬ maxCount < 0 := by
    intro hneg
    unfold GetTootQueueItems at hres
    rw [if_pos hneg] at hres
    exact Option.noConfusion hres
  have hl : l = ((db.tootQueue.filter (fun t => aboveId < t.id)).insertionSort tqiLe).take
      maxCount.toNat := by
    unfold GetTootQueueItems at hres
    rw [if_neg hmc] at hres
    exact (Option.some.inj hres).symm
  obtain ⟨h1, h2, h3, h4, h5⟩ :=
    drain_take_spec db.tootQueue aboveId maxCount.toNat hnd _ l rfl hl
  refine ⟨h1, h2, h3, h4, ?_⟩
  intro hne m hm
  unfold GetTootQueueItems
  rw [if_neg (by omega : ¬ m < 0), h5 hne]

/-- Witness for C3: the contract applied to the concrete queue c3Db. -/
theorem getTootQueueItems_contract_witness :
    c3l.length = min (Int.toNat 2) (c3Db.tootQueue.filter (fun t => (0:Int) < t.id)).length
    ∧ (∀ t ∈ c3l, (0:Int) < t.id)
    ∧ c3l.Pairwise tqiLt
    ∧ (∀ t ∈ c3l, ∀ u ∈ c3Db.tootQueue, (0:Int) < u.id → u ∉ c3l → t.id < u.id)
    ∧ (∀ (hne : c3l ≠ []) (m : Int), 0 ≤ m →
        GetTootQueueItems c3Db (c3l.getLast hne).id m
          = some ((((c3Db.tootQueue.filter (fun t => (0:Int) < t.id)).insertionSort
              tqiLe).drop c3l.length).take m.toNat)) :=
  getTootQueueItems_contract c3Db 0 2 (by decide) c3l (by decide)

/-- AddAccountIfNotExist either leaves the store unchanged or appends the one new
row; in every branch of the source the only mutation is the INSERT. -/
theorem addAccountIfNotExist_db_cases (db : Db) (acct : Account) (privKey : String) :
    (AddAccountIfNotExist db acct privKey).db = db
    ∨ (AddAccountIfNotExist db acct privKey).db
        = { db with accounts := db.accounts ++ [insertedAccountRow db acct privKey] } := by
  unfold AddAccountIfNotExist Db.insertAccount
  by_cases hc : db.accounts.any
      (fun r => r.handle == (insertedAccountRow db acct privKey).handle)
  · rw [if_pos hc]
    simp only [errAsSqlite3Error, uniqueViolation]
    cases hga : GetAccount db acct.handle with
    | ok a => left; simp [hga]
    | error e => left; simp [hga]
  · rw [if_neg hc]
    right; rfl

/-- Rows present before an AddAccountIfNotExist call are still present after it. -/
theorem addAccountIfNotExist_preserves (db : Db) (acct : Account) (privKey : String)
    (r : AccountRow) (hr : r ∈ db.accounts) :
    r ∈ (AddAccountIfNotExist db acct privKey).db.accounts := by
  rcases addAccountIfNotExist_db_cases db acct privKey with h | h <;> rw [h]
  · exact hr
  · exact List.mem_append_left _ hr

/-- Any row present after an AddAccountIfNotExist call was present before or
carries the requested handle. -/
theorem addAccountIfNotExist_new_mem (db : Db) (acct : Account) (privKey : String)
    (r : AccountRow) (hr : r ∈ (AddAccountIfNotExist db acct privKey).db.accounts) :
    r ∈ db.accounts ∨ r.handle = acct.handle := by
  rcases addAccountIfNotExist_db_cases db acct privKey with h | h <;> rw [h] at hr
  · exact Or.inl hr
  · rcases List.mem_append.mp hr with h1 | h2
    · exact Or.inl h1
    · rw [List.mem_singleton] at h2
      subst h2
      exact Or.inr rfl

/-- After an AddAccountIfNotExist call, some row carries the requested handle:
either the insert appended it, or the duplicate that blocked the insert was already
there and is preserved. -/
theorem addAccountIfNotExist_handle_mem (db : Db) (acct : Account) (privKey : String) :
    ∃ r ∈ (AddAccountIfNotExist db acct privKey).db.accounts, r.handle = acct.handle := by
  by_cases hc : db.accounts.any
      (fun r => r.handle == (insertedAccountRow db acct privKey).handle)
  · obtain ⟨r, hrm, hrh⟩ := List.any_eq_true.mp hc
    refine ⟨r, addAccountIfNotExist_preserves db acct privKey r hrm, ?_⟩
    simpa [insertedAccountRow] using hrh
  · have hins : db.insertAccount (insertedAccountRow db acct privKey)
        = .ok { db with accounts := db.accounts ++ [insertedAccountRow db acct privKey] } := by
      unfold Db.insertAccount
      rw [if_neg hc]
    unfold AddAccountIfNotExist
    rw [hins]
    exact ⟨insertedAccountRow db acct privKey,
      List.mem_append_right _ (List.mem_singleton_self _), rfl⟩

/-- Claim C10: every successful InitUpdateDb run, whatever the schema version
found, leaves the store holding an account with handle "handle" — the DBG lines
insert it (or find it already present) on every call. -/
theorem initUpdateDb_always_adds_dbg_handle (reg : ScriptReg) (cfg : Config)
    (db db2 : Db) (h : InitUpdateDb reg cfg db = some db2) :
    ∃ r ∈ db2.accounts, r.handle = "handle" := by
  unfold InitUpdateDb at h
  cases hm : migrateLoop reg db (dbVerOf db) schemaVer with
  | none => rw [hm] at h; exact Option.noConfusion h
  | some db1 =>
    rw [hm] at h
    dsimp only at h
    cases hseed : (if dbVerOf db = 0 then mustAddBuiltInUsers cfg db1 else some db1) with
    | none => rw [hseed] at h; exact Option.noConfusion h
    | some dbs =>
      rw [hseed] at h
      have hd := Option.some.inj h
      subst hd
      obtain ⟨r, hrm, hrh⟩ := addAccountIfNotExist_handle_mem
        (AddAccountIfNotExist dbs dbgAccount "xyz").db dbgAccount "xyz"
      exact ⟨r, hrm, hrh.trans rfl⟩

/-- A successful accounts INSERT appends exactly the given row. -/
theorem insertAccount_ok_mem (db db2 : Db) (row : AccountRow)
    (h : db.insertAccount row = .ok db2) : row ∈ db2.accounts := by
  unfold Db.insertAccount at h
  split at h
  · exact Except.noConfusion h
  · have hd := Except.ok.inj h
    subst hd
    exact List.mem_append_right _ (List.mem_singleton_self _)

/-- A successful mustAddBuiltInUsers leaves a row with the built-in user's handle. -/
theorem mustAddBuiltInUsers_mem (cfg : Config) (db1 dbs : Db)
    (h : mustAddBuiltInUsers cfg db1 = some dbs) :
    ∃ r ∈ dbs.accounts, r.handle = cfg.birbUser := by
  unfold mustAddBuiltInUsers at h
  cases hins : db1.insertAccount (birbRow cfg db1) with
  | error e => rw [hins] at h; exact Option.noConfusion h
  | ok db3 =>
    rw [hins] at h
    have hd := Option.some.inj h
    subst hd
    exact ⟨birbRow cfg db1, insertAccount_ok_mem db1 db3 _ hins, rfl⟩

/-- The source's migration loop computes exactly the spec's ordered fold: locate
script v, execute it, persist v, for v from i+1 up to the target, stopping with a
fatal none at the first failure. -/
theorem migrateAux_eq_spec (reg : ScriptReg) :
    ∀ (n : Nat) (db : Db) (i : Nat),
      migrateAux reg db i n
        = (List.range' (i + 1) n).foldlM
            (fun d v =>
              match reg v with
              | none => none
              | some f =>
                match f d with
                | none => none
                | some d2 => updateSchemaVer d2 v) db
  | 0, db, i => by simp [migrateAux]
  | Nat.succ n, db, i => by
    rw [List.range'_succ, List.foldlM_cons]
    show migrateAux reg db i (n + 1) = _
    unfold migrateAux
    cases hr : reg (i + 1) with
    | none => rfl
    | some f =>
      dsimp only
      cases hf : f db with
      | none => rfl
      | some db3 =>
        dsimp only
        cases hu : updateSchemaVer db3 (i + 1) with
        | none => rfl
        | some db4 =>
          dsimp only
          exact migrateAux_eq_spec reg n db4 (i + 1)

/-- Claim C5: the migration loop refines the spec's per-version script-locate /
execute / persist sequence in strict version order with every failure fatal
(conjuncts 1 and 4); on success the built-in account is seeded exactly when the
version was 0 before the call (conjuncts 2 and 3; conjunct 3 also accounts for the
unconditional DBG insertion of handle "handle", claim C10). -/
theorem initUpdateDb_migration_spec (reg : ScriptReg) (cfg : Config) (db : Db) :
    migrateLoop reg db (dbVerOf db) schemaVer = migrateSpec reg db (dbVerOf db) schemaVer
    ∧ (∀ db2, InitUpdateDb reg cfg db = some db2 → dbVerOf db = 0 →
        ∃ r ∈ db2.accounts, r.handle = cfg.birbUser)
    ∧ (∀ db2, InitUpdateDb reg cfg db = some db2 → dbVerOf db ≠ 0 →
        ∀ r ∈ db2.accounts, r ∈ db.accounts ∨ r.handle = "handle")
    ∧ (dbVerOf db < schemaVer → reg (dbVerOf db + 1) = none →
        InitUpdateDb reg cfg db = none) := by
  refine ⟨?_, ?_, ?_, ?_⟩
  · unfold migrateLoop migrateSpec
    exact migrateAux_eq_spec reg (schemaVer - dbVerOf db) db (dbVerOf db)
  · intro db2 h h0
    unfold InitUpdateDb at h
    cases hm : migrateLoop reg db (dbVerOf db) schemaVer with
    | none => rw [hm] at h; exact Option.noConfusion h
    | some db1 =>
      rw [hm] at h
      dsimp only at h
      rw [if_pos h0] at h
      cases hseed : mustAddBuiltInUsers cfg db1 with
      | none => rw [hseed] at h; exact Option.noConfusion h
      | some dbs =>
        rw [hseed] at h
        have hd := Option.some.inj h
        subst hd
        obtain ⟨r, hrm, hrh⟩ := mustAddBuiltInUsers_mem cfg db1 dbs hseed
        exact ⟨r, addAccountIfNotExist_preserves _ _ _ r
          (addAccountIfNotExist_preserves _ _ _ r hrm), hrh⟩
  · intro db2 h h0 r hr
    have hml : migrateLoop reg db (dbVerOf db) schemaVer = some db := by
      unfold migrateLoop
      have hz : schemaVer - dbVerOf db = 0 := by
        unfold schemaVer
        omega
      rw [hz]
      rfl
    unfold InitUpdateDb at h
    rw [hml] at h
    dsimp only at h
    rw [if_neg h0] at h
    dsimp only at h
    have hd := Option.some.inj h
    subst hd
    rcases addAccountIfNotExist_new_mem _ _ _ r hr with h1 | h1
    · rcases addAccountIfNotExist_new_mem _ _ _ r h1 with h2 | h2
      · exact Or.inl h2
      · exact Or.inr (h2.trans rfl)
    · exact Or.inr (h1.trans rfl)
  · intro h1 h2
    unfold InitUpdateDb
    have hml : migrateLoop reg db (dbVerOf db) schemaVer = none := by
      unfold migrateLoop
      cases hn : schemaVer - dbVerOf db with
      | zero => exact absurd hn (by omega)
      | succ n =>
        unfold migrateAux
        rw [h2]
    rw [hml]

/-- Witness for C10: starting from the empty version-1 store, InitUpdateDb succeeds
and the result holds the "handle" account. -/
theorem initUpdateDb_always_adds_dbg_handle_witness :
    ∃ r ∈ (Db.mk (some 1) [c10Row] [] []).accounts, r.handle = "handle" :=
  initUpdateDb_always_adds_dbg_handle c5Reg c10Cfg c10Db
    (Db.mk (some 1) [c10Row] [] []) (by decide)

/-- Witness for C5: the migration contract applied to the concrete store c10Db. -/
theorem initUpdateDb_migration_spec_witness :
    migrateLoop c5Reg c10Db (dbVerOf c10Db) schemaVer
        = migrateSpec c5Reg c10Db (dbVerOf c10Db) schemaVer
    ∧ (∀ db2, InitUpdateDb c5Reg c10Cfg c10Db = some db2 → dbVerOf c10Db = 0 →
        ∃ r ∈ db2.accounts, r.handle = c10Cfg.birbUser)
    ∧ (∀ db2, InitUpdateDb c5Reg c10Cfg c10Db = some db2 → dbVerOf c10Db ≠ 0 →
        ∀ r ∈ db2.accounts, r ∈ c10Db.accounts ∨ r.handle = "handle")
    ∧ (dbVerOf c10Db < schemaVer → c5Reg (dbVerOf c10Db + 1) = none →
        InitUpdateDb c5Reg c10Cfg c10Db = none) :=
  initUpdateDb_migration_spec c5Reg c10Cfg c10Db
